import Mathlib

/-!
Verification of the in-memory device repository
(`src/repositories/memory.py` together with the data model in
`src/models/device.py`).

The repository keeps three associative containers: a primary store
keyed by the device identity, a hostname index and a management-IP
index (keyed by the canonical string form of the address).  Python
dictionaries are embedded as association lists that preserve insertion
order; assigning to an existing key replaces the entry in place, which
matches CPython's dict semantics.  Identities are generated freshly at
creation (`uuid4` in the source, a counter here), and clock readings
(`datetime.now()` in the source) are passed in explicitly as natural
numbers.  Validated IP addresses are embedded as natural numbers and
`str(...)` on an address object becomes `ipStr`, an injective map to
the canonical string form.
-/

namespace DeviceInventory

/-- The platform enumeration from `src/models/device.py`. -/
inductive DevicePlatform where
  | ios_xe
  | ios_xr
  | nxos
  | eos
  | junos
deriving DecidableEq, Repr

/-- The `.value` of a platform member (the `str` payload of the enum). -/
def DevicePlatform.value : DevicePlatform → String
  | .ios_xe => "ios_xe"
  | .ios_xr => "ios_xr"
  | .nxos => "nxos"
  | .eos => "eos"
  | .junos => "junos"

/-- The role enumeration from `src/models/device.py`. -/
inductive DeviceRole where
  | spine
  | leaf
  | border
  | core
  | access
  | wan
deriving DecidableEq, Repr

/-- The `.value` of a role member. -/
def DeviceRole.value : DeviceRole → String
  | .spine => "spine"
  | .leaf => "leaf"
  | .border => "border"
  | .core => "core"
  | .access => "access"
  | .wan => "wan"

/-- Canonical string form of a validated management IP.  In the source a
validated `IPvAnyAddress` is an address object and `str` on it is the
canonical form; two address objects are equal exactly when their
canonical strings are.  We embed addresses as `Nat` and the canonical
form as its decimal string, which is likewise injective. -/
def ipStr (ip : Nat) : String := toString ip

/-- The stored device record (`Device` in `src/models/device.py`):
frozen, with identity and timestamps generated at creation. -/
structure Device where
  id : Nat
  hostname : String
  management_ip : Nat
  platform : DevicePlatform
  role : DeviceRole
  site : String
  created_at : Nat
  updated_at : Nat
deriving DecidableEq, Repr

/-- Creation payload (`DeviceCreate`): no identity, no timestamps. -/
structure DeviceCreate where
  hostname : String
  management_ip : Nat
  platform : DevicePlatform
  role : DeviceRole
  site : String
deriving DecidableEq, Repr

/-- Partial-update payload (`DeviceUpdate`): each field either absent
(`none`, field not mentioned) or explicitly set (`some v`).  The
upstream model layer rejects payloads that explicitly set a field to an
invalid value, so explicit `None` never reaches the repository. -/
structure DeviceUpdate where
  hostname : Option String
  management_ip : Option Nat
  platform : Option DevicePlatform
  role : Option DeviceRole
  site : Option String
deriving DecidableEq, Repr

/-- `model_dump(exclude_unset=True)` is empty: no field was set. -/
def DeviceUpdate.isUnset (u : DeviceUpdate) : Bool :=
  u.hostname.isNone && u.management_ip.isNone && u.platform.isNone &&
    u.role.isNone && u.site.isNone

/-- Python dict lookup `d.get(k)` on an association list. -/
def lookupKey [DecidableEq α] : List (α × β) → α → Option β
  | [], _ => none
  | (k, v) :: rest, a => if k = a then some v else lookupKey rest a

/-- Python dict assignment `d[k] = v`: replaces the entry in place when
the key is present, appends otherwise. -/
def setKey [DecidableEq α] : List (α × β) → α → β → List (α × β)
  | [], a, b => [(a, b)]
  | (k, v) :: rest, a, b =>
      if k = a then (a, b) :: rest else (k, v) :: setKey rest a b

/-- Python dict deletion `del d[k]` (keys are unique in every state the
repository builds, so removing every binding of `k` is the same map). -/
def eraseKey [DecidableEq α] : List (α × β) → α → List (α × β)
  | [], _ => []
  | (k, v) :: rest, a =>
      if k = a then eraseKey rest a else (k, v) :: eraseKey rest a

/-- The three containers of `InMemoryDeviceRepository.__init__`, plus
the fresh-identity source (`uuid4` in the source). -/
structure RepoState where
  devices : List (Nat × Device)
  hostname_index : List (String × Nat)
  ip_index : List (String × Nat)
  nextId : Nat
deriving DecidableEq, Repr

/-- A freshly constructed repository: all three containers empty. -/
def emptyRepo : RepoState := ⟨[], [], [], 0⟩

/-- Outcome of `add`: the constructed device, or a raised
`DuplicateDeviceError(field, value)`. -/
inductive AddResult where
  | ok (d : Device)
  | dup (field : String) (value : String)
deriving DecidableEq, Repr

/-- Outcome of `update`: the replacement device, `None` for a missing
identity, or a raised `DuplicateDeviceError(field, value)`. -/
inductive UpdateResult where
  | ok (d : Device)
  | notFound
  | dup (field : String) (value : String)
deriving DecidableEq, Repr

/-- The `Device(...)` construction inside `add`: a fresh identity
(`uuid4` in the source, the counter here) and both timestamps from the
current clock reading. -/
def mkDevice (s : RepoState) (p : DeviceCreate) (now : Nat) : Device :=
  { id := s.nextId, hostname := p.hostname,
    management_ip := p.management_ip, platform := p.platform,
    role := p.role, site := p.site, created_at := now,
    updated_at := now }

/-- `InMemoryDeviceRepository.add`: duplicate-hostname check, then
duplicate-IP check, then construct the device and insert it into all
three containers. -/
def add (s : RepoState) (p : DeviceCreate) (now : Nat) : AddResult × RepoState :=
  if (lookupKey s.hostname_index p.hostname).isSome then
    (.dup "hostname" p.hostname, s)
  else if (lookupKey s.ip_index (ipStr p.management_ip)).isSome then
    (.dup "management_ip" (ipStr p.management_ip), s)
  else
    (.ok (mkDevice s p now),
      { devices := setKey s.devices (mkDevice s p now).id (mkDevice s p now),
        hostname_index :=
          setKey s.hostname_index (mkDevice s p now).hostname (mkDevice s p now).id,
        ip_index :=
          setKey s.ip_index (ipStr (mkDevice s p now).management_ip) (mkDevice s p now).id,
        nextId := s.nextId + 1 })

/-- `InMemoryDeviceRepository.get_by_id`: direct dictionary lookup;
the state comes back untouched. -/
def get_by_id (s : RepoState) (device_id : Nat) : Option Device × RepoState :=
  (lookupKey s.devices device_id, s)

/-- `InMemoryDeviceRepository.get_by_hostname`: hostname index, then
primary lookup. -/
def get_by_hostname (s : RepoState) (hostname : String) : Option Device × RepoState :=
  (match lookupKey s.hostname_index hostname with
   | none => none
   | some device_id => lookupKey s.devices device_id, s)

/-- `InMemoryDeviceRepository.get_all`: the primary store's values in
insertion order. -/
def get_all (s : RepoState) : List Device × RepoState :=
  (s.devices.map Prod.snd, s)

/-- `existing.model_copy(update=updates)` with `updates` the explicitly
set fields plus `updated_at = now`: identity and `created_at` carried
over, set fields replaced. -/
def applyUpdate (existing : Device) (u : DeviceUpdate) (now : Nat) : Device :=
  { id := existing.id,
    hostname := u.hostname.getD existing.hostname,
    management_ip := u.management_ip.getD existing.management_ip,
    platform := u.platform.getD existing.platform,
    role := u.role.getD existing.role,
    site := u.site.getD existing.site,
    created_at := existing.created_at,
    updated_at := now }

/-- The hostname-index rewrite inside `update`: when the hostname
changed, the old entry is deleted and the new hostname is bound to the
device's identity; otherwise the index is untouched. -/
def newHostnameIndex (s : RepoState) (device_id : Nat)
    (existing updated : Device) : List (String × Nat) :=
  if updated.hostname != existing.hostname then
    setKey (eraseKey s.hostname_index existing.hostname) updated.hostname device_id
  else s.hostname_index

/-- The IP-index rewrite inside `update`, keyed by canonical strings. -/
def newIpIndex (s : RepoState) (device_id : Nat)
    (existing updated : Device) : List (String × Nat) :=
  if ipStr updated.management_ip != ipStr existing.management_ip then
    setKey (eraseKey s.ip_index (ipStr existing.management_ip))
      (ipStr updated.management_ip) device_id
  else s.ip_index

/-- Tail of `update` after both duplicate checks pass: build the
replacement record, rewrite whichever secondary indexes changed, store
the replacement. -/
def updateApply (s : RepoState) (device_id : Nat) (u : DeviceUpdate)
    (now : Nat) (existing : Device) : UpdateResult × RepoState :=
  (.ok (applyUpdate existing u now),
    { devices := setKey s.devices device_id (applyUpdate existing u now),
      hostname_index := newHostnameIndex s device_id existing (applyUpdate existing u now),
      ip_index := newIpIndex s device_id existing (applyUpdate existing u now),
      nextId := s.nextId })

/-- Middle of `update`: the duplicate-IP check (the new canonical form,
when it differs from the existing one, must be absent from the IP
index). -/
def updateIpCheck (s : RepoState) (device_id : Nat) (u : DeviceUpdate)
    (now : Nat) (existing : Device) : UpdateResult × RepoState :=
  match u.management_ip with
  | some ip =>
      if ipStr ip != ipStr existing.management_ip &&
          (lookupKey s.ip_index (ipStr ip)).isSome then
        (.dup "management_ip" (ipStr ip), s)
      else updateApply s device_id u now existing
  | none => updateApply s device_id u now existing

/-- `InMemoryDeviceRepository.update`: missing identity returns `None`;
an empty payload returns the existing record unchanged; then the
duplicate-hostname check, the duplicate-IP check, and the rebuild. -/
def update (s : RepoState) (device_id : Nat) (u : DeviceUpdate)
    (now : Nat) : UpdateResult × RepoState :=
  match lookupKey s.devices device_id with
  | none => (.notFound, s)
  | some existing =>
    if u.isUnset then (.ok existing, s)
    else
      match u.hostname with
      | some h =>
          if h != existing.hostname &&
              (lookupKey s.hostname_index h).isSome then
            (.dup "hostname" h, s)
          else updateIpCheck s device_id u now existing
      | none => updateIpCheck s device_id u now existing

/-- `InMemoryDeviceRepository.delete`: missing identity returns
`false`; otherwise the record and both of its index entries are
removed and `true` is returned. -/
def delete (s : RepoState) (device_id : Nat) : Bool × RepoState :=
  match lookupKey s.devices device_id with
  | none => (false, s)
  | some device =>
      (true,
        { devices := eraseKey s.devices device_id,
          hostname_index := eraseKey s.hostname_index device.hostname,
          ip_index := eraseKey s.ip_index (ipStr device.management_ip),
          nextId := s.nextId })

/-- The per-device test of `filter_by`: every supplied criterion must
match (`platform`/`role` compare the enum's string value, `site`
compares the string itself); absent criteria match everything. -/
def matchesCriteria (d : Device) (platform role site : Option String) : Bool :=
  (match platform with
   | some p => d.platform.value == p
   | none => true) &&
  (match role with
   | some r => d.role.value == r
   | none => true) &&
  (match site with
   | some si => d.site == si
   | none => true)

/-- The accumulation loop of `filter_by` over the stored devices. -/
def filterLoop (ds : List Device) (platform role site : Option String) : List Device :=
  match ds with
  | [] => []
  | d :: rest =>
      if matchesCriteria d platform role site then
        d :: filterLoop rest platform role site
      else filterLoop rest platform role site

/-- `InMemoryDeviceRepository.filter_by`. -/
def filter_by (s : RepoState) (platform role site : Option String) :
    List Device × RepoState :=
  (filterLoop (s.devices.map Prod.snd) platform role site, s)

/-- One mutating call, for reasoning about reachable states. -/
inductive Op where
  | addOp (p : DeviceCreate) (now : Nat)
  | updateOp (device_id : Nat) (u : DeviceUpdate) (now : Nat)
  | deleteOp (device_id : Nat)
deriving Repr

/-- The state after a mutating call (results discarded). -/
def applyOp (s : RepoState) : Op → RepoState
  | .addOp p now => (add s p now).2
  | .updateOp device_id u now => (update s device_id u now).2
  | .deleteOp device_id => (delete s device_id).2

/-- The state reached from the empty repository by a call sequence. -/
def runOps (ops : List Op) : RepoState := ops.foldl applyOp emptyRepo

/-! ### Association-list lemmas -/

theorem lookupKey_setKey [DecidableEq α] (l : List (α × β)) (a : α) (b : β)
    (x : α) :
    lookupKey (setKey l a b) x = if x = a then some b else lookupKey l x := by
  induction l with
  | nil =>
      simp only [setKey, lookupKey]
      by_cases hx : x = a
      · subst hx
        simp
      · rw [if_neg (Ne.symm hx), if_neg hx]
  | cons kv rest ih =>
      obtain ⟨k, v⟩ := kv
      by_cases hk : k = a
      · subst hk
        by_cases hx : k = x
        · subst hx
          simp [setKey, lookupKey]
        · simp [setKey, lookupKey, hx, Ne.symm hx]
      · by_cases hx : k = x
        · subst hx
          simp [setKey, lookupKey, hk]
        · simp [setKey, lookupKey, hk, hx, ih]

theorem lookupKey_eraseKey [DecidableEq α] (l : List (α × β)) (a x : α) :
    lookupKey (eraseKey l a) x = if x = a then none else lookupKey l x := by
  induction l with
  | nil => simp [eraseKey, lookupKey]
  | cons kv rest ih =>
      obtain ⟨k, v⟩ := kv
      by_cases hk : k = a
      · subst hk
        by_cases hx : x = k
        · subst hx
          simp [eraseKey, lookupKey, ih]
        · simp [eraseKey, lookupKey, hx, Ne.symm hx, ih]
      · by_cases hx : k = x
        · subst hx
          simp [eraseKey, lookupKey, hk]
        · simp [eraseKey, lookupKey, hk, hx, ih]

theorem snd_mem_setKey [DecidableEq α] (l : List (α × β)) (a : α) (b : β) :
    b ∈ (setKey l a b).map Prod.snd := by
  induction l with
  | nil => simp [setKey]
  | cons kv rest ih =>
      obtain ⟨k, v⟩ := kv
      by_cases hk : k = a
      · simp [setKey, hk]
      · simp only [setKey, if_neg hk, List.map_cons, List.mem_cons]
        exact Or.inr ih

/-! ### The lockstep invariant -/

/-- A secondary index over key function `f` agrees with the primary
store: `k` maps to `i` exactly when the store holds a device at `i`
whose `f`-key is `k`. -/
def keyInv (devs : List (Nat × Device)) (idx : List (String × Nat))
    (f : Device → String) : Prop :=
  ∀ k i, lookupKey idx k = some i ↔
    ∃ d, lookupKey devs i = some d ∧ f d = k

/-- Every stored device sits under its own identity, and every stored
identity is below the fresh-identity counter. -/
def idInv (s : RepoState) : Prop :=
  ∀ i d, lookupKey s.devices i = some d → d.id = i ∧ i < s.nextId

/-- The central lockstep invariant: both secondary indexes agree with
the primary store, and identities are consistent and fresh. -/
def Consistent (s : RepoState) : Prop :=
  keyInv s.devices s.hostname_index (fun d => d.hostname) ∧
  keyInv s.devices s.ip_index (fun d => ipStr d.management_ip) ∧
  idInv s

theorem keyInv_empty (f : Device → String) : keyInv [] [] f := by
  intro k i
  simp [lookupKey]

/-- Inserting a record at a fresh identity, with its key absent from
the index, preserves index agreement. -/
theorem keyInv_insert {devs : List (Nat × Device)}
    {idx : List (String × Nat)} {f : Device → String}
    (hinv : keyInv devs idx f) (nid : Nat) (d0 : Device)
    (hfresh : lookupKey devs nid = none)
    (hnew : lookupKey idx (f d0) = none) :
    keyInv (setKey devs nid d0) (setKey idx (f d0) nid) f := by
  intro k i
  rw [lookupKey_setKey]
  constructor
  · intro h
    by_cases hk : k = f d0
    · rw [if_pos hk] at h
      obtain rfl : nid = i := by simpa using h
      refine ⟨d0, ?_, hk.symm⟩
      rw [lookupKey_setKey, if_pos rfl]
    · rw [if_neg hk] at h
      obtain ⟨d, hd, hfd⟩ := (hinv k i).1 h
      refine ⟨d, ?_, hfd⟩
      rw [lookupKey_setKey, if_neg ?_]
      · exact hd
      · rintro rfl
        rw [hfresh] at hd
        exact Option.noConfusion hd
  · rintro ⟨d, hd, rfl⟩
    rw [lookupKey_setKey] at hd
    by_cases hi : i = nid
    · rw [if_pos hi] at hd
      obtain rfl : d0 = d := by simpa using hd
      rw [if_pos rfl, hi]
    · rw [if_neg hi] at hd
      have hidx := (hinv (f d) i).2 ⟨d, hd, rfl⟩
      rw [if_neg ?_]
      · exact hidx
      · intro hk
        rw [hk] at hidx
        rw [hnew] at hidx
        exact Option.noConfusion hidx

/-- Replacing the record at `i` by one with the same key leaves index
agreement intact (the index is untouched). -/
theorem keyInv_replace_same {devs : List (Nat × Device)}
    {idx : List (String × Nat)} {f : Device → String}
    (hinv : keyInv devs idx f) (i0 : Nat) (existing updated : Device)
    (hex : lookupKey devs i0 = some existing)
    (heq : f updated = f existing) :
    keyInv (setKey devs i0 updated) idx f := by
  intro k i
  constructor
  · intro h
    obtain ⟨d, hd, hfd⟩ := (hinv k i).1 h
    by_cases hi : i = i0
    · subst hi
      rw [hex] at hd
      obtain rfl : existing = d := by simpa using hd
      refine ⟨updated, ?_, heq.trans hfd⟩
      rw [lookupKey_setKey, if_pos rfl]
    · refine ⟨d, ?_, hfd⟩
      rw [lookupKey_setKey, if_neg hi]
      exact hd
  · rintro ⟨d, hd, rfl⟩
    rw [lookupKey_setKey] at hd
    by_cases hi : i = i0
    · rw [if_pos hi] at hd
      obtain rfl : updated = d := by simpa using hd
      subst hi
      rw [heq]
      exact (hinv (f existing) i).2 ⟨existing, hex, rfl⟩
    · rw [if_neg hi] at hd
      exact (hinv (f d) i).2 ⟨d, hd, rfl⟩

/-- Replacing the record at `i0` by one with a different key, when the
new key is absent from the index, and rewriting the index accordingly
(erase the old key, bind the new one to `i0`) preserves agreement. -/
theorem keyInv_replace_changed {devs : List (Nat × Device)}
    {idx : List (String × Nat)} {f : Device → String}
    (hinv : keyInv devs idx f) (i0 : Nat) (existing updated : Device)
    (hex : lookupKey devs i0 = some existing)
    (_hne : f updated ≠ f existing)
    (hnew : lookupKey idx (f updated) = none) :
    keyInv (setKey devs i0 updated)
      (setKey (eraseKey idx (f existing)) (f updated) i0) f := by
  have hold : lookupKey idx (f existing) = some i0 :=
    (hinv (f existing) i0).2 ⟨existing, hex, rfl⟩
  intro k i
  rw [lookupKey_setKey, lookupKey_eraseKey]
  constructor
  · intro h
    by_cases hk : k = f updated
    · rw [if_pos hk] at h
      obtain rfl : i0 = i := by simpa using h
      refine ⟨updated, ?_, hk.symm⟩
      rw [lookupKey_setKey, if_pos rfl]
    · rw [if_neg hk] at h
      by_cases hk2 : k = f existing
      · rw [if_pos hk2] at h
        exact absurd h (Option.noConfusion)
      · rw [if_neg hk2] at h
        obtain ⟨d, hd, hfd⟩ := (hinv k i).1 h
        refine ⟨d, ?_, hfd⟩
        rw [lookupKey_setKey, if_neg ?_]
        · exact hd
        · rintro rfl
          rw [hex] at hd
          obtain rfl : existing = d := by simpa using hd
          exact hk2 hfd.symm
  · rintro ⟨d, hd, rfl⟩
    rw [lookupKey_setKey] at hd
    by_cases hi : i = i0
    · rw [if_pos hi] at hd
      obtain rfl : updated = d := by simpa using hd
      rw [if_pos rfl, hi]
    · rw [if_neg hi] at hd
      have hidx := (hinv (f d) i).2 ⟨d, hd, rfl⟩
      have hk1 : f d ≠ f updated := by
        intro hk
        rw [hk] at hidx
        rw [hnew] at hidx
        exact Option.noConfusion hidx
      have hk2 : f d ≠ f existing := by
        intro hk
        rw [hk] at hidx
        rw [hold] at hidx
        exact hi (Eq.symm (by simpa using hidx))
      rw [if_neg hk1, if_neg hk2]
      exact hidx

/-- Deleting the record at `i0` together with its index entry preserves
agreement. -/
theorem keyInv_erase {devs : List (Nat × Device)}
    {idx : List (String × Nat)} {f : Device → String}
    (hinv : keyInv devs idx f) (i0 : Nat) (d0 : Device)
    (hex : lookupKey devs i0 = some d0) :
    keyInv (eraseKey devs i0) (eraseKey idx (f d0)) f := by
  have hold : lookupKey idx (f d0) = some i0 :=
    (hinv (f d0) i0).2 ⟨d0, hex, rfl⟩
  intro k i
  rw [lookupKey_eraseKey, lookupKey_eraseKey]
  constructor
  · intro h
    by_cases hk : k = f d0
    · rw [if_pos hk] at h
      exact absurd h (Option.noConfusion)
    · rw [if_neg hk] at h
      obtain ⟨d, hd, hfd⟩ := (hinv k i).1 h
      have hi : i ≠ i0 := by
        rintro rfl
        rw [hex] at hd
        obtain rfl : d0 = d := by simpa using hd
        exact hk hfd.symm
      exact ⟨d, by rw [if_neg hi]; exact hd, hfd⟩
  · rintro ⟨d, hd, rfl⟩
    by_cases hi : i = i0
    · rw [if_pos hi] at hd
      exact absurd hd (Option.noConfusion)
    · rw [if_neg hi] at hd
      have hidx := (hinv (f d) i).2 ⟨d, hd, rfl⟩
      have hk : f d ≠ f d0 := by
        intro hk
        rw [hk] at hidx
        rw [hold] at hidx
        exact hi (Eq.symm (by simpa using hidx))
      rw [if_neg hk]
      exact hidx

/-! ### Characterisations of the operations -/

theorem add_dup_hostname {s : RepoState} {p : DeviceCreate} {now : Nat}
    {i : Nat} (h1 : lookupKey s.hostname_index p.hostname = some i) :
    add s p now = (.dup "hostname" p.hostname, s) := by
  unfold add
  rw [h1]
  rfl

theorem add_dup_ip {s : RepoState} {p : DeviceCreate} {now : Nat} {i : Nat}
    (h1 : lookupKey s.hostname_index p.hostname = none)
    (h2 : lookupKey s.ip_index (ipStr p.management_ip) = some i) :
    add s p now = (.dup "management_ip" (ipStr p.management_ip), s) := by
  unfold add
  rw [h1, h2]
  rfl

theorem add_success_eq {s : RepoState} {p : DeviceCreate} {now : Nat}
    (h1 : lookupKey s.hostname_index p.hostname = none)
    (h2 : lookupKey s.ip_index (ipStr p.management_ip) = none) :
    add s p now =
      (.ok (mkDevice s p now),
        { devices := setKey s.devices s.nextId (mkDevice s p now),
          hostname_index := setKey s.hostname_index p.hostname s.nextId,
          ip_index := setKey s.ip_index (ipStr p.management_ip) s.nextId,
          nextId := s.nextId + 1 }) := by
  unfold add
  rw [h1, h2]
  rfl

theorem update_notFound {s : RepoState} {device_id : Nat}
    {u : DeviceUpdate} {now : Nat}
    (h : lookupKey s.devices device_id = none) :
    update s device_id u now = (.notFound, s) := by
  unfold update
  rw [h]

theorem update_unset {s : RepoState} {device_id : Nat} {u : DeviceUpdate}
    {now : Nat} {existing : Device}
    (hex : lookupKey s.devices device_id = some existing)
    (hu : u.isUnset = true) :
    update s device_id u now = (.ok existing, s) := by
  unfold update
  rw [hex]
  simp [hu]

theorem updateIpCheck_pass {s : RepoState} {device_id : Nat}
    {u : DeviceUpdate} {now : Nat} {existing : Device}
    (hI : ∀ ip, u.management_ip = some ip →
      ipStr ip = ipStr existing.management_ip ∨
      lookupKey s.ip_index (ipStr ip) = none) :
    updateIpCheck s device_id u now existing =
      updateApply s device_id u now existing := by
  unfold updateIpCheck
  cases hip : u.management_ip with
  | none => rfl
  | some ip =>
      show (if (ipStr ip != ipStr existing.management_ip &&
            (lookupKey s.ip_index (ipStr ip)).isSome) = true then
            (UpdateResult.dup "management_ip" (ipStr ip), s)
          else updateApply s device_id u now existing) =
        updateApply s device_id u now existing
      rcases hI ip hip with h | h
      · simp [h]
      · simp [h]

theorem update_success_eq {s : RepoState} {device_id : Nat}
    {u : DeviceUpdate} {now : Nat} {existing : Device}
    (hex : lookupKey s.devices device_id = some existing)
    (hu : u.isUnset = false)
    (hH : ∀ h, u.hostname = some h →
      h = existing.hostname ∨ lookupKey s.hostname_index h = none)
    (hI : ∀ ip, u.management_ip = some ip →
      ipStr ip = ipStr existing.management_ip ∨
      lookupKey s.ip_index (ipStr ip) = none) :
    update s device_id u now = updateApply s device_id u now existing := by
  unfold update
  rw [hex]
  simp only [hu, Bool.false_eq_true, if_false]
  cases hh : u.hostname with
  | none => exact updateIpCheck_pass hI
  | some h =>
      rcases hH h hh with h1 | h1
      · rw [h1]
        simp only [bne_self_eq_false, Bool.false_and, Bool.false_eq_true, if_false]
        exact updateIpCheck_pass hI
      · simp only [h1, Option.isSome_none, Bool.and_false, Bool.false_eq_true, if_false]
        exact updateIpCheck_pass hI

/-! ### Preservation of the invariant -/

theorem consistent_add (s : RepoState) (p : DeviceCreate) (now : Nat)
    (hc : Consistent s) : Consistent (add s p now).2 := by
  obtain ⟨hH, hI, hid⟩ := hc
  cases hl1 : lookupKey s.hostname_index p.hostname with
  | some i =>
      rw [add_dup_hostname hl1]
      exact ⟨hH, hI, hid⟩
  | none =>
      cases hl2 : lookupKey s.ip_index (ipStr p.management_ip) with
      | some i =>
          rw [add_dup_ip hl1 hl2]
          exact ⟨hH, hI, hid⟩
      | none =>
          rw [add_success_eq hl1 hl2]
          have hfresh : lookupKey s.devices s.nextId = none := by
            cases hf : lookupKey s.devices s.nextId with
            | none => rfl
            | some d => exact absurd (hid _ _ hf).2 (lt_irrefl _)
          refine ⟨?_, ?_, ?_⟩
          · exact keyInv_insert hH s.nextId (mkDevice s p now) hfresh hl1
          · exact keyInv_insert hI s.nextId (mkDevice s p now) hfresh hl2
          · intro i d hl
            rw [lookupKey_setKey] at hl
            by_cases hi : i = s.nextId
            · rw [if_pos hi] at hl
              obtain rfl : mkDevice s p now = d := by simpa using hl
              exact ⟨hi.symm, by rw [hi]; exact Nat.lt_succ_self _⟩
            · rw [if_neg hi] at hl
              obtain ⟨h1, h2⟩ := hid i d hl
              exact ⟨h1, Nat.lt_succ_of_lt h2⟩

theorem consistent_updateApply (s : RepoState) (device_id : Nat)
    (u : DeviceUpdate) (now : Nat) (existing : Device)
    (hc : Consistent s)
    (hex : lookupKey s.devices device_id = some existing)
    (hH : ∀ h, u.hostname = some h →
      h = existing.hostname ∨ lookupKey s.hostname_index h = none)
    (hI : ∀ ip, u.management_ip = some ip →
      ipStr ip = ipStr existing.management_ip ∨
      lookupKey s.ip_index (ipStr ip) = none) :
    Consistent (updateApply s device_id u now existing).2 := by
  obtain ⟨hHI, hII, hid⟩ := hc
  obtain ⟨hid1, hid2⟩ := hid device_id existing hex
  refine ⟨?_, ?_, ?_⟩
  · show keyInv (setKey s.devices device_id (applyUpdate existing u now))
      (newHostnameIndex s device_id existing (applyUpdate existing u now))
      (fun d => d.hostname)
    unfold newHostnameIndex
    by_cases hch : (applyUpdate existing u now).hostname = existing.hostname
    · rw [hch]
      simp only [bne_self_eq_false, Bool.false_eq_true, if_false]
      exact keyInv_replace_same hHI device_id existing _ hex hch
    · rw [if_pos (bne_iff_ne.mpr hch)]
      have hsome : u.hostname = some (applyUpdate existing u now).hostname := by
        cases hh : u.hostname with
        | none => exact absurd (by simp [applyUpdate, hh]) hch
        | some h => simp [applyUpdate, hh]
      rcases hH _ hsome with h1 | h1
      · exact absurd h1 hch
      · exact keyInv_replace_changed hHI device_id existing _ hex hch h1
  · show keyInv (setKey s.devices device_id (applyUpdate existing u now))
      (newIpIndex s device_id existing (applyUpdate existing u now))
      (fun d => ipStr d.management_ip)
    unfold newIpIndex
    by_cases hch : ipStr (applyUpdate existing u now).management_ip =
        ipStr existing.management_ip
    · rw [hch]
      simp only [bne_self_eq_false, Bool.false_eq_true, if_false]
      exact keyInv_replace_same hII device_id existing _ hex hch
    · rw [if_pos (bne_iff_ne.mpr hch)]
      have hsome : u.management_ip = some (applyUpdate existing u now).management_ip := by
        cases hh : u.management_ip with
        | none => exact absurd (by simp [applyUpdate, hh]) hch
        | some ip => simp [applyUpdate, hh]
      rcases hI _ hsome with h1 | h1
      · exact absurd h1 hch
      · exact keyInv_replace_changed hII device_id existing _ hex hch h1
  · intro i d hl
    have hl2 : lookupKey (setKey s.devices device_id (applyUpdate existing u now)) i =
        some d := hl
    rw [lookupKey_setKey] at hl2
    show d.id = i ∧ i < s.nextId
    by_cases hi : i = device_id
    · rw [if_pos hi] at hl2
      obtain rfl : applyUpdate existing u now = d := by simpa using hl2
      constructor
      · show existing.id = i
        rw [hid1, hi]
      · rw [hi]
        exact hid2
    · rw [if_neg hi] at hl2
      exact hid i d hl2

theorem consistent_updateIpCheck (s : RepoState) (device_id : Nat)
    (u : DeviceUpdate) (now : Nat) (existing : Device)
    (hc : Consistent s)
    (hex : lookupKey s.devices device_id = some existing)
    (hH : ∀ h, u.hostname = some h →
      h = existing.hostname ∨ lookupKey s.hostname_index h = none) :
    Consistent (updateIpCheck s device_id u now existing).2 := by
  unfold updateIpCheck
  cases hip : u.management_ip with
  | none =>
      refine consistent_updateApply s device_id u now existing hc hex hH ?_
      intro ip h
      rw [hip] at h
      exact absurd h (by simp)
  | some ip =>
      show Consistent (if (ipStr ip != ipStr existing.management_ip &&
          (lookupKey s.ip_index (ipStr ip)).isSome) = true then
          (UpdateResult.dup "management_ip" (ipStr ip), s)
        else updateApply s device_id u now existing).2
      by_cases hd : (ipStr ip != ipStr existing.management_ip &&
          (lookupKey s.ip_index (ipStr ip)).isSome) = true
      · rw [if_pos hd]
        exact hc
      · rw [if_neg hd]
        refine consistent_updateApply s device_id u now existing hc hex hH ?_
        intro ip2 h
        rw [hip] at h
        obtain rfl : ip = ip2 := by simpa using h
        by_cases h1 : ipStr ip = ipStr existing.management_ip
        · exact Or.inl h1
        · right
          cases h2 : lookupKey s.ip_index (ipStr ip) with
          | none => rfl
          | some j => exact absurd (by simp [bne_iff_ne, h1, h2]) hd

theorem consistent_update (s : RepoState) (device_id : Nat)
    (u : DeviceUpdate) (now : Nat) (hc : Consistent s) :
    Consistent (update s device_id u now).2 := by
  cases hex : lookupKey s.devices device_id with
  | none =>
      rw [update_notFound hex]
      exact hc
  | some existing =>
      by_cases hu : u.isUnset = true
      · rw [update_unset hex hu]
        exact hc
      · have hu2 : u.isUnset = false := by
          revert hu
          cases u.isUnset <;> simp
        unfold update
        rw [hex]
        simp only [hu2, Bool.false_eq_true, if_false]
        cases hh : u.hostname with
        | none =>
            refine consistent_updateIpCheck s device_id u now existing hc hex ?_
            intro h hsome
            rw [hh] at hsome
            exact absurd hsome (by simp)
        | some h =>
            show Consistent (if (h != existing.hostname &&
                (lookupKey s.hostname_index h).isSome) = true then
                (UpdateResult.dup "hostname" h, s)
              else updateIpCheck s device_id u now existing).2
            by_cases hd : (h != existing.hostname &&
                (lookupKey s.hostname_index h).isSome) = true
            · rw [if_pos hd]
              exact hc
            · rw [if_neg hd]
              refine consistent_updateIpCheck s device_id u now existing hc hex ?_
              intro h2 hsome
              rw [hh] at hsome
              obtain rfl : h = h2 := by simpa using hsome
              by_cases h1 : h = existing.hostname
              · exact Or.inl h1
              · right
                cases h2l : lookupKey s.hostname_index h with
                | none => rfl
                | some j => exact absurd (by simp [bne_iff_ne, h1, h2l]) hd

theorem consistent_delete (s : RepoState) (device_id : Nat)
    (hc : Consistent s) : Consistent (delete s device_id).2 := by
  obtain ⟨hH, hI, hid⟩ := hc
  unfold delete
  cases hex : lookupKey s.devices device_id with
  | none => exact ⟨hH, hI, hid⟩
  | some d =>
      refine ⟨keyInv_erase hH device_id d hex, keyInv_erase hI device_id d hex, ?_⟩
      intro i d2 hl
      rw [lookupKey_eraseKey] at hl
      by_cases hi : i = device_id
      · rw [if_pos hi] at hl
        exact absurd hl Option.noConfusion
      · rw [if_neg hi] at hl
        exact hid i d2 hl

theorem consistent_applyOp (s : RepoState) (op : Op) (hc : Consistent s) :
    Consistent (applyOp s op) := by
  cases op with
  | addOp p now => exact consistent_add s p now hc
  | updateOp device_id u now => exact consistent_update s device_id u now hc
  | deleteOp device_id => exact consistent_delete s device_id hc

theorem consistent_emptyRepo : Consistent emptyRepo := by
  refine ⟨keyInv_empty _, keyInv_empty _, ?_⟩
  intro i d h
  exact absurd h Option.noConfusion

theorem consistent_foldl (ops : List Op) :
    ∀ s, Consistent s → Consistent (ops.foldl applyOp s) := by
  induction ops with
  | nil => intro s hc; exact hc
  | cons op rest ih => intro s hc; exact ih _ (consistent_applyOp s op hc)

/-- Every state reachable from the empty repository by add, update and
delete calls satisfies the lockstep invariant. -/
theorem consistent_runOps (ops : List Op) : Consistent (runOps ops) :=
  consistent_foldl ops emptyRepo consistent_emptyRepo

/-! ### Filter lemmas -/

theorem filterLoop_mem (ds : List Device) (p r si : Option String) (d : Device) :
    d ∈ filterLoop ds p r si ↔ d ∈ ds ∧ matchesCriteria d p r si = true := by
  induction ds with
  | nil => simp [filterLoop]
  | cons d0 rest ih =>
      by_cases hm : matchesCriteria d0 p r si = true
      · simp only [filterLoop, if_pos hm, List.mem_cons, ih]
        constructor
        · rintro (rfl | ⟨hd, hm2⟩)
          · exact ⟨Or.inl rfl, hm⟩
          · exact ⟨Or.inr hd, hm2⟩
        · rintro ⟨rfl | hd, hm2⟩
          · exact Or.inl rfl
          · exact Or.inr ⟨hd, hm2⟩
      · simp only [filterLoop, if_neg hm, List.mem_cons, ih]
        constructor
        · rintro ⟨hd, hm2⟩
          exact ⟨Or.inr hd, hm2⟩
        · rintro ⟨rfl | hd, hm2⟩
          · exact absurd hm2 hm
          · exact ⟨hd, hm2⟩

theorem filterLoop_no_criteria (ds : List Device) :
    filterLoop ds none none none = ds := by
  induction ds with
  | nil => rfl
  | cons d rest ih => simp [filterLoop, matchesCriteria, ih]

theorem filterLoop_nomatch (ds : List Device) (p r si : Option String)
    (h : ∀ d, d ∈ ds → matchesCriteria d p r si = false) :
    filterLoop ds p r si = [] := by
  induction ds with
  | nil => rfl
  | cons d rest ih =>
      simp only [filterLoop, h d (List.mem_cons_self d rest), Bool.false_eq_true,
        if_false]
      exact ih (fun d2 hd2 => h d2 (List.mem_cons_of_mem d hd2))

/-! ### The claims -/

/-- C1: in every repository state reachable from the empty repository
by add, update and delete calls, the hostname index maps `h` to an
identity exactly when the primary store holds a device with that
identity whose hostname is `h`, the IP index maps a canonical IP string
to an identity exactly when the store holds a device with that identity
whose management IP has that canonical form, and consequently no two
stored devices share a hostname and no two share a canonical
management-IP string. -/
theorem c1_indexes_lockstep (ops : List Op) :
    (∀ h i, lookupKey (runOps ops).hostname_index h = some i ↔
      ∃ d, lookupKey (runOps ops).devices i = some d ∧ d.hostname = h) ∧
    (∀ k i, lookupKey (runOps ops).ip_index k = some i ↔
      ∃ d, lookupKey (runOps ops).devices i = some d ∧
        ipStr d.management_ip = k) ∧
    (∀ i1 i2 d1 d2, lookupKey (runOps ops).devices i1 = some d1 →
      lookupKey (runOps ops).devices i2 = some d2 →
      d1.hostname = d2.hostname → i1 = i2) ∧
    (∀ i1 i2 d1 d2, lookupKey (runOps ops).devices i1 = some d1 →
      lookupKey (runOps ops).devices i2 = some d2 →
      ipStr d1.management_ip = ipStr d2.management_ip → i1 = i2) := by
  obtain ⟨hH, hI, _⟩ := consistent_runOps ops
  refine ⟨hH, hI, ?_, ?_⟩
  · intro i1 i2 d1 d2 h1 h2 hh
    have e1 := (hH d1.hostname i1).2 ⟨d1, h1, rfl⟩
    have e2 := (hH d1.hostname i2).2 ⟨d2, h2, hh.symm⟩
    rw [e1] at e2
    exact (by simpa using e2 : i1 = i2)
  · intro i1 i2 d1 d2 h1 h2 hh
    have e1 := (hI (ipStr d1.management_ip) i1).2 ⟨d1, h1, rfl⟩
    have e2 := (hI (ipStr d1.management_ip) i2).2 ⟨d2, h2, hh.symm⟩
    rw [e1] at e2
    exact (by simpa using e2 : i1 = i2)

/-- C7: an update whose payload sets no fields returns the stored
device unchanged — including `updated_at` — and leaves the repository
state untouched. -/
theorem c7_noop_update (s : RepoState) (device_id : Nat) (u : DeviceUpdate)
    (now : Nat) (existing : Device)
    (hex : lookupKey s.devices device_id = some existing)
    (hu : u.isUnset = true) :
    update s device_id u now = (.ok existing, s) :=
  update_unset hex hu

/-- C8: `filter_by` returns exactly the stored devices satisfying the
conjunction of all supplied criteria, and with no criteria it returns
the same devices as `get_all`. -/
theorem c8_filter_conjunction (s : RepoState) (p r si : Option String) :
    (∀ d, d ∈ (filter_by s p r si).1 ↔
      d ∈ (get_all s).1 ∧ matchesCriteria d p r si = true) ∧
    (filter_by s none none none).1 = (get_all s).1 :=
  ⟨fun d => filterLoop_mem (s.devices.map Prod.snd) p r si d,
   filterLoop_no_criteria (s.devices.map Prod.snd)⟩

/-- C9: the four read operations leave the repository state unchanged
for every state and argument, and an absent identity or hostname yields
an absent result rather than an error. -/
theorem c9_reads_no_side_effects (s : RepoState) (device_id : Nat)
    (hostname : String) (p r si : Option String) :
    (get_by_id s device_id).2 = s ∧
    (get_by_hostname s hostname).2 = s ∧
    (get_all s).2 = s ∧
    (filter_by s p r si).2 = s ∧
    (lookupKey s.devices device_id = none →
      (get_by_id s device_id).1 = none) ∧
    (lookupKey s.hostname_index hostname = none →
      (get_by_hostname s hostname).1 = none) := by
  refine ⟨rfl, rfl, rfl, rfl, fun h => h, fun h => ?_⟩
  show (match lookupKey s.hostname_index hostname with
    | none => none
    | some device_id => lookupKey s.devices device_id) = none
  rw [h]

/-- C10: a platform or role criterion that is not the `.value` of any
member of the corresponding enumeration silently matches nothing:
`filter_by` returns the empty list and raises no error. -/
theorem c10_unknown_vocabulary (s : RepoState) (p r : String)
    (pc rc sic : Option String) :
    ((∀ v : DevicePlatform, v.value ≠ p) →
      (filter_by s (some p) rc sic).1 = []) ∧
    ((∀ v : DeviceRole, v.value ≠ r) →
      (filter_by s pc (some r) sic).1 = []) := by
  constructor
  · intro hp
    apply filterLoop_nomatch
    intro d _
    have hb : (d.platform.value == p) = false :=
      beq_eq_false_iff_ne.mpr (hp d.platform)
    simp [matchesCriteria, hb]
  · intro hr
    apply filterLoop_nomatch
    intro d _
    have hb : (d.role.value == r) = false :=
      beq_eq_false_iff_ne.mpr (hr d.role)
    simp [matchesCriteria, hb]

/-- C3: `add` checks the hostname index first and the IP index second:
a hostname already present fails with `DuplicateKey` on `hostname` and
the offending value with no mutation; otherwise a canonical IP string
already present fails with `DuplicateKey` on `management_ip` and the
canonical value with no mutation, so a payload duplicating both reports
`hostname`. -/
theorem c3_add_duplicate (s : RepoState) (p : DeviceCreate) (now : Nat) :
    (∀ i, lookupKey s.hostname_index p.hostname = some i →
      add s p now = (.dup "hostname" p.hostname, s)) ∧
    (lookupKey s.hostname_index p.hostname = none →
      ∀ i, lookupKey s.ip_index (ipStr p.management_ip) = some i →
        add s p now = (.dup "management_ip" (ipStr p.management_ip), s)) :=
  ⟨fun _ h => add_dup_hostname h, fun h1 _ h2 => add_dup_ip h1 h2⟩

/-- C2: in a consistent state, an update that sets the hostname to a
value owned by a different stored device fails with `DuplicateKey` on
`hostname` and leaves the state exactly as it was; the same holds for a
management IP whose canonical form is owned by a different device; and
setting hostname and IP to the device's own current values is not a
duplicate error. -/
theorem c2_update_duplicate (s : RepoState) (hc : Consistent s) :
    (∀ device_id other_id existing other u now,
      lookupKey s.devices device_id = some existing →
      lookupKey s.devices other_id = some other →
      other_id ≠ device_id →
      u.hostname = some other.hostname →
      update s device_id u now = (.dup "hostname" other.hostname, s)) ∧
    (∀ device_id other_id existing other u now,
      lookupKey s.devices device_id = some existing →
      lookupKey s.devices other_id = some other →
      other_id ≠ device_id →
      u.hostname = none →
      u.management_ip = some other.management_ip →
      update s device_id u now =
        (.dup "management_ip" (ipStr other.management_ip), s)) ∧
    (∀ device_id existing u now,
      lookupKey s.devices device_id = some existing →
      u.hostname = some existing.hostname →
      u.management_ip = some existing.management_ip →
      (update s device_id u now).1 = .ok (applyUpdate existing u now)) := by
  obtain ⟨hH, hI, hid⟩ := hc
  refine ⟨?_, ?_, ?_⟩
  · intro device_id other_id existing other u now hex hoth hne hh
    have hidx : lookupKey s.hostname_index other.hostname = some other_id :=
      (hH other.hostname other_id).2 ⟨other, hoth, rfl⟩
    have hneq : other.hostname ≠ existing.hostname := by
      intro he
      have hidx2 : lookupKey s.hostname_index existing.hostname = some device_id :=
        (hH existing.hostname device_id).2 ⟨existing, hex, rfl⟩
      rw [he, hidx2] at hidx
      exact hne (Eq.symm (by simpa using hidx))
    have hunset : u.isUnset = false := by
      simp [DeviceUpdate.isUnset, hh]
    unfold update
    rw [hex]
    simp only [hunset, Bool.false_eq_true, if_false]
    cases hh2 : u.hostname with
    | none =>
        rw [hh2] at hh
        exact absurd hh (by simp)
    | some h0 =>
        rw [hh2] at hh
        obtain rfl : h0 = other.hostname := by simpa using hh
        show (if (other.hostname != existing.hostname &&
            (lookupKey s.hostname_index other.hostname).isSome) = true then
            (UpdateResult.dup "hostname" other.hostname, s)
          else updateIpCheck s device_id u now existing) =
          (UpdateResult.dup "hostname" other.hostname, s)
        have hcond : (other.hostname != existing.hostname &&
            (lookupKey s.hostname_index other.hostname).isSome) = true := by
          simp [bne_iff_ne, hneq, hidx]
        rw [if_pos hcond]
  · intro device_id other_id existing other u now hex hoth hne hh hip
    have hidx : lookupKey s.ip_index (ipStr other.management_ip) = some other_id :=
      (hI (ipStr other.management_ip) other_id).2 ⟨other, hoth, rfl⟩
    have hneq : ipStr other.management_ip ≠ ipStr existing.management_ip := by
      intro he
      have hidx2 : lookupKey s.ip_index (ipStr existing.management_ip) = some device_id :=
        (hI (ipStr existing.management_ip) device_id).2 ⟨existing, hex, rfl⟩
      rw [he, hidx2] at hidx
      exact hne (Eq.symm (by simpa using hidx))
    have hunset : u.isUnset = false := by
      simp [DeviceUpdate.isUnset, hip]
    unfold update
    rw [hex]
    simp only [hunset, Bool.false_eq_true, if_false]
    cases hh2 : u.hostname with
    | some h0 =>
        rw [hh2] at hh
        exact absurd hh (by simp)
    | none =>
        show updateIpCheck s device_id u now existing =
          (UpdateResult.dup "management_ip" (ipStr other.management_ip), s)
        unfold updateIpCheck
        cases hip2 : u.management_ip with
        | none =>
            rw [hip2] at hip
            exact absurd hip (by simp)
        | some ip0 =>
            rw [hip2] at hip
            obtain rfl : ip0 = other.management_ip := by simpa using hip
            show (if (ipStr other.management_ip != ipStr existing.management_ip &&
                (lookupKey s.ip_index (ipStr other.management_ip)).isSome) = true then
                (UpdateResult.dup "management_ip" (ipStr other.management_ip), s)
              else updateApply s device_id u now existing) =
              (UpdateResult.dup "management_ip" (ipStr other.management_ip), s)
            have hcond : (ipStr other.management_ip != ipStr existing.management_ip &&
                (lookupKey s.ip_index (ipStr other.management_ip)).isSome) = true := by
              simp [bne_iff_ne, hneq, hidx]
            rw [if_pos hcond]
  · intro device_id existing u now hex hh hip
    have hunset : u.isUnset = false := by
      simp [DeviceUpdate.isUnset, hh]
    have hH2 : ∀ h0, u.hostname = some h0 →
        h0 = existing.hostname ∨ lookupKey s.hostname_index h0 = none := by
      intro h0 hsome
      rw [hh] at hsome
      exact Or.inl (Eq.symm (by simpa using hsome))
    have hI2 : ∀ ip0, u.management_ip = some ip0 →
        ipStr ip0 = ipStr existing.management_ip ∨
        lookupKey s.ip_index (ipStr ip0) = none := by
      intro ip0 hsome
      rw [hip] at hsome
      obtain rfl : existing.management_ip = ip0 := by simpa using hsome
      exact Or.inl rfl
    rw [update_success_eq hex hunset hH2 hI2]
    rfl

/-- C5: when the payload's hostname and canonical IP string are absent
from the indexes, `add` succeeds and returns a device carrying the
payload's fields with a freshly generated identity and timestamps, and
the device is then found by `get_by_id`, by `get_by_hostname` under its
hostname, and in `get_all`. -/
theorem c5_add_success (s : RepoState) (p : DeviceCreate) (now : Nat)
    (h1 : lookupKey s.hostname_index p.hostname = none)
    (h2 : lookupKey s.ip_index (ipStr p.management_ip) = none) :
    (add s p now).1 = .ok (mkDevice s p now) ∧
    (mkDevice s p now).id = s.nextId ∧
    (mkDevice s p now).hostname = p.hostname ∧
    (mkDevice s p now).management_ip = p.management_ip ∧
    (mkDevice s p now).platform = p.platform ∧
    (mkDevice s p now).role = p.role ∧
    (mkDevice s p now).site = p.site ∧
    (mkDevice s p now).created_at = now ∧
    (mkDevice s p now).updated_at = now ∧
    (get_by_id (add s p now).2 (mkDevice s p now).id).1 = some (mkDevice s p now) ∧
    (get_by_hostname (add s p now).2 p.hostname).1 = some (mkDevice s p now) ∧
    (mkDevice s p now) ∈ (get_all (add s p now).2).1 := by
  rw [add_success_eq h1 h2]
  refine ⟨rfl, rfl, rfl, rfl, rfl, rfl, rfl, rfl, rfl, ?_, ?_, ?_⟩
  · show lookupKey (setKey s.devices s.nextId (mkDevice s p now)) s.nextId =
      some (mkDevice s p now)
    simp [lookupKey_setKey]
  · have hlook : lookupKey (setKey s.hostname_index p.hostname s.nextId)
        p.hostname = some s.nextId := by
      simp [lookupKey_setKey]
    show (match lookupKey (setKey s.hostname_index p.hostname s.nextId) p.hostname with
      | none => none
      | some device_id =>
          lookupKey (setKey s.devices s.nextId (mkDevice s p now)) device_id) =
      some (mkDevice s p now)
    rw [hlook]
    show lookupKey (setKey s.devices s.nextId (mkDevice s p now)) s.nextId =
      some (mkDevice s p now)
    simp [lookupKey_setKey]
  · show mkDevice s p now ∈ (setKey s.devices s.nextId (mkDevice s p now)).map Prod.snd
    exact snd_mem_setKey s.devices s.nextId (mkDevice s p now)

/-- C6: `delete` of an absent identity returns `false` with no
mutation; of a present identity it removes the device from the primary
store and its entries from both indexes, leaves all other devices
untouched and returns `true`, after which an `add` reusing the deleted
hostname and management IP succeeds and yields an identity distinct
from the deleted one. -/
theorem c6_delete (s : RepoState) (device_id : Nat) :
    (lookupKey s.devices device_id = none → delete s device_id = (false, s)) ∧
    (∀ d, lookupKey s.devices device_id = some d →
      (delete s device_id).1 = true ∧
      lookupKey (delete s device_id).2.devices device_id = none ∧
      lookupKey (delete s device_id).2.hostname_index d.hostname = none ∧
      lookupKey (delete s device_id).2.ip_index (ipStr d.management_ip) = none ∧
      (∀ i, i ≠ device_id →
        lookupKey (delete s device_id).2.devices i = lookupKey s.devices i) ∧
      (∀ p now, Consistent s → p.hostname = d.hostname →
        p.management_ip = d.management_ip →
        (add (delete s device_id).2 p now).1 =
          .ok (mkDevice (delete s device_id).2 p now) ∧
        (mkDevice (delete s device_id).2 p now).id ≠ device_id)) := by
  constructor
  · intro h
    unfold delete
    rw [h]
  · intro d hex
    have hdel : delete s device_id =
        (true, ⟨eraseKey s.devices device_id,
          eraseKey s.hostname_index d.hostname,
          eraseKey s.ip_index (ipStr d.management_ip), s.nextId⟩) := by
      unfold delete
      rw [hex]
    rw [hdel]
    refine ⟨rfl, ?_, ?_, ?_, ?_, ?_⟩
    · simp [lookupKey_eraseKey]
    · simp [lookupKey_eraseKey]
    · simp [lookupKey_eraseKey]
    · intro i hi
      show lookupKey (eraseKey s.devices device_id) i = lookupKey s.devices i
      rw [lookupKey_eraseKey, if_neg hi]
    · intro p now hc hh hip
      have h1 : lookupKey (eraseKey s.hostname_index d.hostname) p.hostname = none := by
        rw [hh]
        simp [lookupKey_eraseKey]
      have h2 : lookupKey (eraseKey s.ip_index (ipStr d.management_ip))
          (ipStr p.management_ip) = none := by
        rw [hip]
        simp [lookupKey_eraseKey]
      constructor
      · rw [add_success_eq h1 h2]
      · show s.nextId ≠ device_id
        obtain ⟨_, _, hid⟩ := hc
        exact ne_of_gt (hid device_id d hex).2

/-! ### Concrete repository runs used by the C4 analysis and the
witnesses -/

/-- Creation payload A from the spec's concrete scenario. -/
def pA : DeviceCreate := ⟨"spine1", 10, .eos, .spine, "dc1"⟩

/-- A second payload with distinct hostname and IP. -/
def pB : DeviceCreate := ⟨"spine2", 11, .eos, .spine, "dc1"⟩

/-- Payload clashing with `pA` on the management IP only. -/
def pDupIp : DeviceCreate := ⟨"spine2", 10, .eos, .spine, "dc1"⟩

/-- A two-device repository: `pA` added at clock 1, `pB` at clock 2. -/
def demoState : RepoState := runOps [.addOp pA 1, .addOp pB 2]

/-- The stored record produced by adding `pA` at clock 1. -/
def devA : Device := ⟨0, "spine1", 10, .eos, .spine, "dc1", 1, 1⟩

/-- The stored record produced by adding `pB` at clock 2. -/
def devB : Device := ⟨1, "spine2", 11, .eos, .spine, "dc1", 2, 2⟩

/-- The all-absent update payload (`DeviceUpdate()` with nothing set). -/
def noUpdate : DeviceUpdate := ⟨none, none, none, none, none⟩

/-- An update payload renaming a device to `spine1b`. -/
def renameUpdate : DeviceUpdate := ⟨some "spine1b", none, none, none, none⟩

/-- A one-device repository whose record was added at clock 5. -/
def c4State : RepoState := runOps [.addOp pA 5]

/-- The record stored in `c4State`: `updated_at = 5`. -/
def c4Prior : Device := ⟨0, "spine1", 10, .eos, .spine, "dc1", 5, 5⟩

/-- The record returned by updating `c4State` at the same clock
reading 5: `updated_at` is again 5. -/
def c4After : Device := ⟨0, "spine1b", 10, .eos, .spine, "dc1", 5, 5⟩

/-- C4 (code bug): `update` stamps `updated_at = datetime.now()` with
no logical tie-breaker, so a successful update at the same clock
reading as the prior `updated_at` returns `updated_at` equal to — not
strictly greater than — the prior value, although identity and
`created_at` are preserved.  The claim's strict monotonicity at equal
clock readings fails on the code. -/
theorem c4_updated_at_not_strictly_monotone :
    lookupKey c4State.devices 0 = some c4Prior ∧
    (update c4State 0 renameUpdate 5).1 = .ok c4After ∧
    c4After.id = c4Prior.id ∧
    c4After.created_at = c4Prior.created_at ∧
    c4After.updated_at = c4Prior.updated_at ∧
    ¬ c4After.updated_at > c4Prior.updated_at := by
  refine ⟨by decide, by decide, rfl, rfl, rfl, by decide⟩

/-! ### Concrete instantiations of the claim theorems -/

/-- C1 instantiated on a concrete two-device run. -/
theorem c1_witness_lockstep :
    lookupKey demoState.hostname_index "spine2" = some 1 :=
  ((c1_indexes_lockstep [.addOp pA 1, .addOp pB 2]).1 "spine2" 1).2
    ⟨devB, by decide, rfl⟩

/-- C2 instantiated: renaming device 0 to device 1's hostname fails
with `DuplicateKey` on `hostname` and no mutation. -/
theorem c2_witness_duplicate_rename :
    update demoState 0 ⟨some "spine2", none, none, none, none⟩ 7 =
      (.dup "hostname" "spine2", demoState) :=
  (c2_update_duplicate demoState
      (consistent_runOps [.addOp pA 1, .addOp pB 2])).1
    0 1 devA devB ⟨some "spine2", none, none, none, none⟩ 7
    (by decide) (by decide) (by decide) rfl

/-- C3 instantiated on the spec's concrete scenario: adding a second
device with `pA`'s management IP reports `management_ip`. -/
theorem c3_witness_dup_ip :
    add (runOps [.addOp pA 1]) pDupIp 2 =
      (.dup "management_ip" (ipStr 10), runOps [.addOp pA 1]) :=
  (c3_add_duplicate (runOps [.addOp pA 1]) pDupIp 2).2 (by decide) 0 (by decide)

/-- C5 instantiated: the device added to the empty repository appears
in `get_all`. -/
theorem c5_witness_found :
    mkDevice emptyRepo pA 1 ∈ (get_all (add emptyRepo pA 1).2).1 :=
  (c5_add_success emptyRepo pA 1 rfl rfl).2.2.2.2.2.2.2.2.2.2.2

/-- C6 instantiated: re-adding the deleted device's hostname and IP
yields a fresh identity distinct from the deleted one. -/
theorem c6_witness_fresh_id :
    (mkDevice (delete demoState 0).2 pA 9).id ≠ 0 :=
  (((c6_delete demoState 0).2 devA (by decide)).2.2.2.2.2 pA 9
    (consistent_runOps [.addOp pA 1, .addOp pB 2]) rfl rfl).2

/-- C7 instantiated: the empty payload is a true no-op on a concrete
state. -/
theorem c7_witness_noop :
    update demoState 0 noUpdate 9 = (.ok devA, demoState) :=
  c7_noop_update demoState 0 noUpdate 9 devA (by decide) rfl

/-- C8 instantiated: no criteria returns the same list as `get_all`. -/
theorem c8_witness_no_criteria :
    (filter_by demoState none none none).1 = (get_all demoState).1 :=
  (c8_filter_conjunction demoState none none none).2

/-- C9 instantiated: an absent hostname yields an absent result. -/
theorem c9_witness_absent :
    (get_by_hostname demoState "missing").1 = none :=
  (c9_reads_no_side_effects demoState 5 "missing" none none none).2.2.2.2.2
    (by decide)

/-- C10 instantiated: an unknown platform word matches nothing. -/
theorem c10_witness_unknown_platform :
    (filter_by demoState (some "linux") none none).1 = [] :=
  (c10_unknown_vocabulary demoState "linux" "anything" none none none).1
    (fun v => by cases v <;> decide)

end DeviceInventory
